import Mathlib

/-!
Verification development for the finance-tracker repository.

The ledger store (src/finance_tracker/database.py) is embedded as a pure
state machine over a list of rows; SQLite aggregate queries become folds
over that list.  SQLite REAL currency amounts are modelled as exact
integers (amounts in the smallest currency unit): the aggregation claims
depend only on exact additive arithmetic.
The theme registry (src/finance_tracker/theme_manager.py) is embedded as a
record holding the loaded theme table, the active key and the content of
the settings file; parsed TOML documents become association lists.
-/

/-- Row of the transactions table: columns id, type, category, amount,
description, date, created_at (src/finance_tracker/database.py,
init_database). -/
structure Tx where
  id : Nat
  type : String
  category : String
  amount : ℤ
  description : String
  date : String
  created_at : String
deriving DecidableEq, Repr

/-- State of the ledger store: the rows of the transactions table plus the
next AUTOINCREMENT id. -/
structure DBState where
  rows : List Tx
  nextId : Nat
deriving DecidableEq, Repr

/-- Freshly initialized database: empty table, AUTOINCREMENT starts at 1
(Database.init_database). -/
def init_database : DBState := ⟨[], 1⟩

/-- Database.add_transaction: INSERT a row with both timestamps set to the
insertion instant, returning True on the non-faulting path. -/
def add_transaction (ty category : String) (amount : ℤ) (descr now : String)
    (st : DBState) : Bool × DBState :=
  (true,
    { rows := st.rows ++ [⟨st.nextId, ty, category, amount, descr, now, now⟩],
      nextId := st.nextId + 1 })

/-- Database.delete_transaction: DELETE FROM transactions WHERE id = ?;
returns True whether or not a row was affected. -/
def delete_transaction (tid : Nat) (st : DBState) : Bool × DBState :=
  (true, { st with rows := st.rows.filter (fun r => r.id != tid) })

/-- SQL aggregate SUM(CASE WHEN type = ty THEN amount ELSE 0 END) with
COALESCE to 0 over a list of rows. -/
def sqlSumIf (ty : String) (rows : List Tx) : ℤ :=
  (rows.map (fun r => if r.type == ty then r.amount else 0)).sum

/-- Database.get_balance: income sum minus expense sum over the whole
table. -/
def get_balance (st : DBState) : ℤ :=
  sqlSumIf "income" st.rows - sqlSumIf "expense" st.rows

/-- Balance as the specification phrases it: sum of amounts of income rows
minus sum of amounts of expense rows. -/
def specBalance (rows : List Tx) : ℤ :=
  ((rows.filter (fun r => r.type == "income")).map (·.amount)).sum -
    ((rows.filter (fun r => r.type == "expense")).map (·.amount)).sum

/-- One external call against the ledger store. -/
inductive LedgerOp where
  | add : String → String → ℤ → String → String → LedgerOp
  | del : Nat → LedgerOp
deriving DecidableEq, Repr

/-- Apply one ledger call to the database state. -/
def applyOp (st : DBState) : LedgerOp → DBState
  | .add ty c a d now => (add_transaction ty c a d now st).2
  | .del tid => (delete_transaction tid st).2

/-- Apply a sequence of ledger calls starting from a given state. -/
def applyOps (ops : List LedgerOp) (st : DBState) : DBState :=
  ops.foldl applyOp st

/-- SQLite BINARY collation on TEXT values, as used by ORDER BY and the
comparison date >= cutoff: lexicographic comparison of the character
sequences. -/
def charsLe : List Char → List Char → Bool
  | [], _ => true
  | _ :: _, [] => false
  | c :: cs, d :: ds => if c < d then true else if d < c then false else charsLe cs ds

/-- TEXT comparison a <= b under SQLite BINARY collation. -/
def sqliteTextLe (a b : String) : Bool := charsLe a.data b.data

/-- Row ordering used by ORDER BY date DESC: later business dates first. -/
def byDateDesc (a b : Tx) : Prop := sqliteTextLe b.date a.date = true

instance : DecidableRel byDateDesc :=
  fun a b => Bool.decEq (sqliteTextLe b.date a.date) true

/-- Database.get_transactions: SELECT ... ORDER BY date DESC LIMIT ?; the
result is the rows sorted by descending date, truncated to the limit. -/
def get_transactions (limit : Nat) (st : DBState) : List Tx :=
  (st.rows.insertionSort byDateDesc).take limit

/-- Rows passing the 30-day filter of the statistics query: the cutoff
string stands for the value of the SQL expression date of now minus 30
days, and a row qualifies when its date column is at least that cutoff
under text comparison. -/
def windowRows (cutoff : String) (st : DBState) : List Tx :=
  st.rows.filter (fun r => sqliteTextLe cutoff r.date)

/-- Expense rows inside the 30-day window: the WHERE clause keeps rows of
expense type whose date is at least the cutoff. -/
def expenseWindowRows (cutoff : String) (st : DBState) : List Tx :=
  (windowRows cutoff st).filter (fun r => r.type == "expense")

/-- Distinct values in first-occurrence order, as produced by GROUP BY
over the scanned rows. -/
def dedup (l : List String) : List String :=
  l.foldl (fun acc c => if c ∈ acc then acc else acc ++ [c]) []

/-- Distinct expense categories inside the window (the GROUP BY keys). -/
def expenseCats (cutoff : String) (st : DBState) : List String :=
  dedup ((expenseWindowRows cutoff st).map (·.category))

/-- SUM(amount) for one GROUP BY category group. -/
def catTotal (cutoff : String) (st : DBState) (c : String) : ℤ :=
  (((expenseWindowRows cutoff st).filter (fun r => r.category == c)).map (·.amount)).sum

/-- Ordering used by ORDER BY total DESC on (category, total) pairs. -/
def byTotalDesc (a b : String × ℤ) : Prop := b.2 ≤ a.2

instance : DecidableRel byTotalDesc :=
  fun a b => inferInstanceAs (Decidable (b.2 ≤ a.2))

instance : IsTotal (String × ℤ) byTotalDesc :=
  ⟨fun a b => le_total b.2 a.2⟩

instance : IsTrans (String × ℤ) byTotalDesc :=
  ⟨fun _ _ _ h1 h2 => le_trans h2 h1⟩

/-- Category rows of the statistics query before LIMIT 5: one (category,
total) pair per group, ordered by total descending (ties resolved by the
stable sort, matching the arbitrary tie order of the SQL engine). -/
def topCategoryPairs (cutoff : String) (st : DBState) : List (String × ℤ) :=
  ((expenseCats cutoff st).map (fun c => (c, catTotal cutoff st c))).insertionSort byTotalDesc

/-- Result record of Database.get_statistics. -/
structure Stats where
  monthly_income : ℤ
  monthly_expense : ℤ
  top_categories : List (String × ℤ)
deriving DecidableEq, Repr

/-- Database.get_statistics: 30-day income and expense sums plus the top
five expense categories of the window. -/
def get_statistics (cutoff : String) (st : DBState) : Stats :=
  { monthly_income := sqlSumIf "income" (windowRows cutoff st)
    monthly_expense := sqlSumIf "expense" (windowRows cutoff st)
    top_categories := (topCategoryPairs cutoff st).take 5 }

/-- Value of a parsed TOML document: a string or a nested table.  Only
these two shapes occur in the theme and settings files. -/
inductive TomlVal where
  | str : String → TomlVal
  | table : List (String × TomlVal) → TomlVal

/-- Parsed TOML table: an association list in document order (Python dicts
preserve insertion order). -/
abbrev TomlTable := List (String × TomlVal)

/-- State of the ThemeManager singleton together with the settings file it
reads and writes: the loaded theme table (self.themes), the active key
(self.current_theme_key) and the content of config/settings.toml (none
when the file does not exist). -/
structure RegWorld where
  themes : TomlTable
  current_theme_key : String
  settingsFile : Option TomlTable

/-- Parse outcome of config/themes.toml as _load_themes observes it:
the file is missing, the document lacks a top-level theme entry, or the
theme entry is a table of named theme definitions (TOML section headers
of the form theme.key always parse to such a table). -/
inductive ThemesFile where
  | missing : ThemesFile
  | noThemeKey : ThemesFile
  | withThemes : TomlTable → ThemesFile

/-- Exceptions escaping the load path: FileNotFoundError, the two
ValueError cases of _load_themes, a type error while reading settings,
and a failure while writing the default settings file. -/
inductive LoadErr where
  | fileNotFound : LoadErr
  | noThemes : LoadErr
  | noDefault : LoadErr
  | badSettings : LoadErr
  | persistFailure : LoadErr
deriving DecidableEq, Repr

/-- Python dict assignment d[k] = v on an association list: replace the
first binding of k in place, or append a new binding at the end. -/
def setKey (k : String) (v : TomlVal) : TomlTable → TomlTable
  | [] => [(k, v)]
  | (k2, v2) :: rest =>
      if k2 == k then (k, v) :: rest else (k2, v2) :: setKey k v rest

/-- ThemeManager._load_themes: raise when the file is missing or has no
theme entry; otherwise assign self.themes from the document and only then
check that a default theme exists, raising after the assignment when it
does not (the source performs the assignment before the check). -/
def load_themes (tf : ThemesFile) (st : RegWorld) : Option LoadErr × RegWorld :=
  match tf with
  | .missing => (some .fileNotFound, st)
  | .noThemeKey => (some .noThemes, st)
  | .withThemes t =>
      let st2 := { st with themes := t }
      if (List.lookup "default" t).isSome then (none, st2)
      else (some .noDefault, st2)

/-- Tail of _load_settings: adopt the stored key when it names a loaded
theme, otherwise warn and fall back to the default key. -/
def applyKey (key : String) (st : RegWorld) : RegWorld :=
  if (List.lookup key st.themes).isSome then { st with current_theme_key := key }
  else { st with current_theme_key := "default" }

/-- ThemeManager._load_settings: when the settings file is absent, write a
default one and select the default theme (the write may fail, in which
case the exception propagates and nothing changes); otherwise read
appearance.theme with default fallbacks and validate it against the
loaded themes.  A string where the appearance table should be, or a table
where the theme string should be, makes the Python lookup raise. -/
def load_settings (saveOk : Bool) (st : RegWorld) : Option LoadErr × RegWorld :=
  match st.settingsFile with
  | none =>
      if saveOk then
        (none,
          { st with
            settingsFile := some [("appearance", TomlVal.table [("theme", TomlVal.str "default")])],
            current_theme_key := "default" })
      else (some .persistFailure, st)
  | some settings =>
      match List.lookup "appearance" settings with
      | some (TomlVal.str _) => (some .badSettings, st)
      | some (TomlVal.table a) =>
          match List.lookup "theme" a with
          | some (TomlVal.table _) => (some .badSettings, st)
          | some (TomlVal.str s) => (none, applyKey s st)
          | none => (none, applyKey "default" st)
      | none => (none, applyKey "default" st)

/-- ThemeManager.initialize: load the theme definitions, then the user
settings; an exception from the first step skips the second. -/
def initTracker (tf : ThemesFile) (saveOk : Bool) (st : RegWorld) :
    Option LoadErr × RegWorld :=
  match load_themes tf st with
  | (some e, st2) => (some e, st2)
  | (none, st2) => load_settings saveOk st2

/-- ThemeManager.get_current_theme: return the active theme, silently
resetting the active key to default first when it is no longer present. -/
def get_current_theme (st : RegWorld) : Option TomlVal × RegWorld :=
  if (List.lookup st.current_theme_key st.themes).isSome then
    (List.lookup st.current_theme_key st.themes, st)
  else (List.lookup "default" st.themes, { st with current_theme_key := "default" })

/-- Character class [a-z0-9_] of the theme key validation. -/
def isKeyChar (c : Char) : Bool :=
  (decide ('a' ≤ c) && decide (c ≤ 'z')) ||
    (decide ('0' ≤ c) && decide (c ≤ '9')) || c == '_'

/-- Nonempty run of key characters: the language of the bare regular
expression [a-z0-9_]+. -/
def matchChars (cs : List Char) : Bool := !cs.isEmpty && cs.all isKeyChar

/-- Theme key grammar exactly as the specification words it: the key must
match [a-z0-9_]+. -/
def specKeyGrammar (s : String) : Bool := matchChars s.data

/-- Python re.match against the anchored pattern of switch_theme: the
dollar anchor accepts the end of the string and also the position just
before one trailing newline, so a key of key characters followed by a
single final newline is accepted as well. -/
def matches_key_format (s : String) : Bool :=
  matchChars s.data || ((s.data.getLast? == some '\n') && matchChars s.data.dropLast)

/-- ThemeManager.switch_theme of the finance_tracker package: validate the
key format, require the key to be a loaded theme, set the active key, then
persist appearance.theme into the settings file.  The saveOk flag models
whether the final file write succeeds; an appearance entry that is a plain
string makes the item assignment raise inside the try block.  Every
failure inside the try block is caught and reported as False without
rolling back the active key. -/
def switch_theme (saveOk : Bool) (key : String) (st : RegWorld) : Bool × RegWorld :=
  if matches_key_format key then
    if (List.lookup key st.themes).isSome then
      let st1 := { st with current_theme_key := key }
      let settings := st1.settingsFile.getD []
      match List.lookup "appearance" settings with
      | some (TomlVal.str _) => (false, st1)
      | some (TomlVal.table a) =>
          let s2 := setKey "appearance" (TomlVal.table (setKey "theme" (TomlVal.str key) a)) settings
          if saveOk then (true, { st1 with settingsFile := some s2 }) else (false, st1)
      | none =>
          let s2 := setKey "appearance" (TomlVal.table [("theme", TomlVal.str key)]) settings
          if saveOk then (true, { st1 with settingsFile := some s2 }) else (false, st1)
    else (false, st)
  else (false, st)

instance : IsTotal Tx byDateDesc := by
  constructor
  intro a b
  show charsLe b.date.data a.date.data = true ∨ charsLe a.date.data b.date.data = true
  generalize b.date.data = l1
  generalize a.date.data = l2
  induction l1 generalizing l2 with
  | nil => left; rfl
  | cons c cs ih =>
    cases l2 with
    | nil => right; rfl
    | cons d ds =>
      by_cases h1 : c < d
      · left; simp [charsLe, h1]
      · by_cases h2 : d < c
        · right; simp [charsLe, h2]
        · rcases ih ds with h | h
          · left; simp [charsLe, h1, h2, h]
          · right; simp [charsLe, h1, h2, h]

instance : IsTrans Tx byDateDesc := by
  constructor
  intro a b c hab hbc
  have hab2 : charsLe b.date.data a.date.data = true := hab
  have hbc2 : charsLe c.date.data b.date.data = true := hbc
  show charsLe c.date.data a.date.data = true
  clear hab hbc
  revert hab2 hbc2
  generalize c.date.data = l1
  generalize b.date.data = l2
  generalize a.date.data = l3
  intro hab2 hbc2
  induction l1 generalizing l2 l3 with
  | nil => rfl
  | cons c1 cs ih =>
    cases l2 with
    | nil => exact absurd hbc2 (by simp [charsLe])
    | cons c2 ds =>
      cases l3 with
      | nil => exact absurd hab2 (by simp [charsLe])
      | cons c3 es =>
        by_cases h12 : c1 < c2
        · by_cases h23 : c2 < c3
          · simp [charsLe, lt_trans h12 h23]
          · by_cases h32 : c3 < c2
            · exact absurd hab2 (by simp [charsLe, h23, h32])
            · have he : c2 = c3 := le_antisymm (not_lt.mp h32) (not_lt.mp h23)
              subst he
              simp [charsLe, h12]
        · by_cases h21 : c2 < c1
          · exact absurd hbc2 (by simp [charsLe, h12, h21])
          · have he : c1 = c2 := le_antisymm (not_lt.mp h21) (not_lt.mp h12)
            subst he
            have hbc3 : charsLe cs ds = true := by
              simpa [charsLe, h12, h21] using hbc2
            by_cases h13 : c1 < c3
            · simp [charsLe, h13]
            · by_cases h31 : c3 < c1
              · exact absurd hab2 (by simp [charsLe, h13, h31])
              · have he2 : c1 = c3 := le_antisymm (not_lt.mp h31) (not_lt.mp h13)
                subst he2
                have hab3 : charsLe ds es = true := by
                  simpa [charsLe, h13, h31] using hab2
                simpa [charsLe, h13, h31] using ih ds es hab3 hbc3

/-- Sample income row used by concrete checks. -/
def txA : Tx := ⟨1, "income", "salary", 2000, "", "2026-10-01T09:00:00", "2026-10-01T09:00:00"⟩

/-- Sample expense row used by concrete checks. -/
def txB : Tx := ⟨2, "expense", "food", 50, "", "2026-10-02T09:00:00", "2026-10-02T09:00:00"⟩

/-- Shorthand for a concrete expense row on a given business date. -/
def mkExp (i : Nat) (c : String) (a : ℤ) (d : String) : Tx := ⟨i, "expense", c, a, "", d, d⟩

/-- Ledger with a single row, used by the delete checks. -/
def stDel : DBState := ⟨[txA], 2⟩

/-- Ledger exercising the statistics query: one income row, six expense
categories inside the 30-day window and one stale expense row. -/
def stStats : DBState :=
  ⟨[⟨1, "income", "salary", 2000, "", "2026-10-01", "2026-10-01"⟩,
    mkExp 2 "groceries" 60 "2026-10-02", mkExp 3 "rent" 50 "2026-10-02",
    mkExp 4 "transit" 40 "2026-10-03", mkExp 5 "games" 30 "2026-10-03",
    mkExp 6 "books" 20 "2026-10-04", mkExp 7 "coffee" 10 "2026-10-04",
    mkExp 8 "stale" 999 "2026-08-01"], 9⟩

/-- Registry with only the default theme and an empty settings document. -/
def Wreject : RegWorld := ⟨[("default", TomlVal.table [])], "default", some []⟩

/-- Registry whose loaded theme table contains a key with a trailing
newline, as a TOML quoted key can produce. -/
def Wcex : RegWorld :=
  ⟨[("default", TomlVal.table []), ("abc\n", TomlVal.table [])], "default", some []⟩

/-- Registry with two themes and a persisted default preference. -/
def Wpersist : RegWorld :=
  ⟨[("default", TomlVal.table []), ("ocean", TomlVal.table [])], "default",
    some [("appearance", TomlVal.table [("theme", TomlVal.str "default")])]⟩

/-- Registry whose settings file carries an unrelated section and an
unrelated appearance entry next to the theme preference. -/
def Wframe : RegWorld :=
  ⟨[("default", TomlVal.table []), ("ocean", TomlVal.table [])], "default",
    some [("window", TomlVal.str "big"),
      ("appearance", TomlVal.table [("theme", TomlVal.str "default"), ("font", TomlVal.str "mono")])]⟩

/-- Registry before any load: no themes, no settings file. -/
def WFresh : RegWorld := ⟨[], "default", none⟩

/-- Theme table lacking the required default entry. -/
def docNoDefault : TomlTable := [("blue", TomlVal.table [])]

/-- First version of the theme definitions file. -/
def themesV1 : TomlTable := [("default", TomlVal.table [])]

/-- Changed version of the theme definitions file. -/
def themesV2 : TomlTable :=
  [("default", TomlVal.table [("name", TomlVal.str "v2")]), ("extra", TomlVal.table [])]

theorem sum_map_ite_eq_sum_filter (p : Tx → Bool) (l : List Tx) :
    (l.map (fun r => if p r then r.amount else 0)).sum =
      ((l.filter p).map (·.amount)).sum := by
  induction l with
  | nil => rfl
  | cons r t ih => cases hp : p r <;> simp [hp, ih, List.filter_cons]

theorem get_balance_eq_specBalance (st : DBState) :
    get_balance st = specBalance st.rows := by
  unfold get_balance specBalance sqlSumIf
  rw [sum_map_ite_eq_sum_filter, sum_map_ite_eq_sum_filter]

/-- C1: for every sequence of add and delete calls, balance() returns the
income sum minus the expense sum over all surviving rows with no date
filter; it is 0 on the empty ledger, and the spec-side balance is
invariant under permutation of the rows, so the result is independent of
insertion order. -/
theorem balance_matches_spec :
    (∀ ops : List LedgerOp,
        get_balance (applyOps ops init_database) =
          specBalance (applyOps ops init_database).rows)
    ∧ get_balance init_database = 0
    ∧ ∀ l l2 : List Tx, l.Perm l2 → specBalance l = specBalance l2 := by
  refine ⟨fun ops => get_balance_eq_specBalance _, rfl, fun l l2 h => ?_⟩
  unfold specBalance
  rw [((h.filter _).map _).sum_eq, ((h.filter _).map _).sum_eq]

/-- Concrete check for C1: the documented scenario of one 2000 income and
one 50 expense yields balance 1950, and swapping the two rows leaves the
spec-side balance unchanged. -/
theorem balance_matches_spec_check :
    get_balance (applyOps
        [LedgerOp.add "income" "salary" 2000 "" "2026-10-01T09:00:00",
         LedgerOp.add "expense" "food" 50 "" "2026-10-02T09:00:00"] init_database) = 1950
    ∧ specBalance [txA, txB] = specBalance [txB, txA] := by
  constructor
  · rw [balance_matches_spec.1]
    decide
  · exact balance_matches_spec.2.2 [txA, txB] [txB, txA] (List.Perm.swap txB txA [])

/-- C2: delete(id) returns true whether or not a row with that id exists,
deleting twice equals deleting once (call result and state), and deleting
an id that matches no row leaves the ledger unchanged. -/
theorem delete_transaction_idempotent :
    ∀ (tid : Nat) (st : DBState),
      (delete_transaction tid st).1 = true
      ∧ delete_transaction tid (delete_transaction tid st).2 = delete_transaction tid st
      ∧ ((∀ r ∈ st.rows, r.id ≠ tid) → (delete_transaction tid st).2 = st) := by
  intro tid st
  refine ⟨rfl, ?_, ?_⟩
  · unfold delete_transaction
    simp [List.filter_filter]
  · intro h
    unfold delete_transaction
    have : st.rows.filter (fun r => r.id != tid) = st.rows :=
      List.filter_eq_self.mpr fun r hr => by simpa using h r hr
    simp [this]

/-- Concrete check for C2: deleting an id absent from a one-row ledger
returns true and is a no-op. -/
theorem delete_transaction_idempotent_check :
    (delete_transaction 7 stDel).1 = true ∧ (delete_transaction 7 stDel).2 = stDel :=
  ⟨(delete_transaction_idempotent 7 stDel).1,
   (delete_transaction_idempotent 7 stDel).2.2 (by decide)⟩

/-- C8: list(limit) returns at most limit rows, ordered by business date
descending under the SQLite text collation, and returns the empty list on
an empty ledger. -/
theorem get_transactions_limit_ordered :
    ∀ (limit : Nat) (st : DBState),
      (get_transactions limit st).length ≤ limit
      ∧ List.Pairwise byDateDesc (get_transactions limit st)
      ∧ (st.rows = [] → get_transactions limit st = []) := by
  intro limit st
  refine ⟨?_, ?_, ?_⟩
  · exact List.length_take_le limit _
  · exact List.Pairwise.sublist (List.take_sublist _ _)
      (List.sorted_insertionSort byDateDesc st.rows)
  · intro h
    unfold get_transactions
    rw [h]
    simp

/-- Concrete check for C8: a two-row ledger listed with limit 1 yields
exactly the row with the later business date. -/
theorem get_transactions_limit_ordered_check :
    (get_transactions 1 ⟨[txA, txB], 3⟩).length ≤ 1
    ∧ get_transactions 1 init_database = [] :=
  ⟨(get_transactions_limit_ordered 1 ⟨[txA, txB], 3⟩).1,
   (get_transactions_limit_ordered 1 init_database).2.2 rfl⟩

/-- C7: statistics() sums income and expense over exactly the rows whose
business date is at least the 30-day cutoff, its top_categories list has
at most five entries sorted descending by summed amount, every expense
category of the window left out of the list has a total no larger than
any listed total, and an empty window yields zero sums and no
categories. -/
theorem statistics_window_and_top :
    ∀ (cutoff : String) (st : DBState),
      (get_statistics cutoff st).monthly_income =
        (((windowRows cutoff st).filter (fun r => r.type == "income")).map (·.amount)).sum
      ∧ (get_statistics cutoff st).monthly_expense =
        (((windowRows cutoff st).filter (fun r => r.type == "expense")).map (·.amount)).sum
      ∧ (get_statistics cutoff st).top_categories.length ≤ 5
      ∧ List.Pairwise byTotalDesc (get_statistics cutoff st).top_categories
      ∧ (∀ c ∈ expenseCats cutoff st,
          c ∉ (get_statistics cutoff st).top_categories.map Prod.fst →
          ∀ p ∈ (get_statistics cutoff st).top_categories, catTotal cutoff st c ≤ p.2)
      ∧ (windowRows cutoff st = [] →
          (get_statistics cutoff st).monthly_income = 0
          ∧ (get_statistics cutoff st).monthly_expense = 0
          ∧ (get_statistics cutoff st).top_categories = []) := by
  intro cutoff st
  refine ⟨?_, ?_, ?_, ?_, ?_, ?_⟩
  · exact sum_map_ite_eq_sum_filter _ _
  · exact sum_map_ite_eq_sum_filter _ _
  · exact List.length_take_le 5 _
  · exact List.Pairwise.sublist (List.take_sublist _ _)
      (List.sorted_insertionSort byTotalDesc _)
  · intro c hc hnot p hp
    have hperm : (topCategoryPairs cutoff st).Perm
        ((expenseCats cutoff st).map (fun c2 => (c2, catTotal cutoff st c2))) :=
      List.perm_insertionSort byTotalDesc _
    have hmem : (c, catTotal cutoff st c) ∈ topCategoryPairs cutoff st :=
      hperm.mem_iff.mpr (List.mem_map_of_mem _ hc)
    have hsplit := List.take_append_drop 5 (topCategoryPairs cutoff st)
    have hsorted : List.Pairwise byTotalDesc (topCategoryPairs cutoff st) :=
      List.sorted_insertionSort byTotalDesc _
    rw [← hsplit] at hmem hsorted
    rcases List.mem_append.mp hmem with hin | hin
    · exact absurd (List.mem_map_of_mem Prod.fst hin) hnot
    · exact (List.pairwise_append.mp hsorted).2.2 p hp _ hin
  · intro h
    refine ⟨?_, ?_, ?_⟩ <;>
      simp [get_statistics, sqlSumIf, topCategoryPairs, expenseCats,
        expenseWindowRows, catTotal, dedup, h]

/-- Concrete check for C7: with six expense categories in the window the
category coffee falls outside the top five and its total is bounded by a
listed total, and the empty ledger yields an empty category list. -/
theorem statistics_window_and_top_check :
    catTotal "2026-09-12" stStats "coffee" ≤ 60
    ∧ (get_statistics "2026-09-12" init_database).top_categories = [] := by
  constructor
  · exact (statistics_window_and_top "2026-09-12" stStats).2.2.2.2.1 "coffee" (by decide)
      (by decide) ("groceries", 60) (by decide)
  · exact ((statistics_window_and_top "2026-09-12" init_database).2.2.2.2.2 rfl).2.2

theorem lookup_setKey_self (k : String) (v : TomlVal) (t : TomlTable) :
    List.lookup k (setKey k v t) = some v := by
  induction t with
  | nil => simp [setKey]
  | cons p rest ih =>
    obtain ⟨k2, v2⟩ := p
    by_cases h : k2 = k
    · subst h
      simp [setKey]
    · have hb : (k == k2) = false := beq_eq_false_iff_ne.mpr (Ne.symm h)
      simp [setKey, List.lookup, h, hb, ih]

theorem lookup_setKey_ne (k k2 : String) (h : k ≠ k2) (v : TomlVal) (t : TomlTable) :
    List.lookup k (setKey k2 v t) = List.lookup k t := by
  have hb : (k == k2) = false := beq_eq_false_iff_ne.mpr h
  induction t with
  | nil => simp [setKey, List.lookup, hb]
  | cons p rest ih =>
    obtain ⟨k3, v3⟩ := p
    by_cases h2 : k3 = k2
    · subst h2
      simp [setKey, List.lookup, hb]
    · simp [setKey, List.lookup, h2, ih]

theorem load_settings_themes (saveOk : Bool) (st : RegWorld) :
    (load_settings saveOk st).2.themes = st.themes := by
  unfold load_settings applyKey
  split
  · split <;> rfl
  · split
    · rfl
    · split
      · rfl
      · split <;> rfl
      · split <;> rfl
    · split <;> rfl

theorem matches_key_format_iff (key : String) :
    matches_key_format key = true ↔
      specKeyGrammar key = true ∨
        ∃ w : String, specKeyGrammar w = true ∧ key = w ++ "\n" := by
  have hnl : ("\n" : String).data = ['\n'] := by decide
  unfold matches_key_format specKeyGrammar
  constructor
  · intro h
    by_cases h1 : matchChars key.data
    · exact Or.inl h1
    · right
      simp [h1] at h
      obtain ⟨hl, hm⟩ := h
      rcases key.data.eq_nil_or_concat with hnil | ⟨L, b, hcat⟩
      · rw [hnil] at hl
        cases hl
      · rw [List.concat_eq_append] at hcat
        have hb : b = '\n' := by
          rw [hcat, List.getLast?_concat] at hl
          exact Option.some.inj hl
        refine ⟨⟨L⟩, ?_, ?_⟩
        · have hm2 := hm
          rw [hcat, List.dropLast_concat] at hm2
          exact hm2
        · apply String.ext
          rw [String.data_append, hnl, hcat, hb]
  · intro h
    rcases h with h | ⟨w, hw, hkey⟩
    · simp [h]
    · subst hkey
      have hd : (w ++ ("\n" : String)).data = w.data ++ ['\n'] := by
        rw [String.data_append, hnl]
      simp [hd, List.getLast?_concat, List.dropLast_concat, hw]

theorem switch_success_settings (key : String) (st : RegWorld)
    (h : (switch_theme true key st).1 = true) :
    (List.lookup key st.themes).isSome = true
    ∧ ∃ s2 a2,
        (switch_theme true key st).2.settingsFile = some s2
        ∧ (switch_theme true key st).2.current_theme_key = key
        ∧ List.lookup "appearance" s2 = some (TomlVal.table a2)
        ∧ List.lookup "theme" a2 = some (TomlVal.str key)
        ∧ (∀ k, k ≠ "appearance" →
            List.lookup k s2 = List.lookup k (st.settingsFile.getD []))
        ∧ (∀ a, List.lookup "appearance" (st.settingsFile.getD []) = some (TomlVal.table a) →
            ∀ k2, k2 ≠ "theme" → List.lookup k2 a2 = List.lookup k2 a) := by
  by_cases hf : matches_key_format key
  case neg => exact absurd h (by simp [switch_theme, hf])
  by_cases hk : (List.lookup key st.themes).isSome
  case neg => exact absurd h (by simp [switch_theme, hf, hk])
  refine ⟨hk, ?_⟩
  cases happ : List.lookup "appearance" (st.settingsFile.getD []) with
  | none =>
    refine ⟨setKey "appearance" (TomlVal.table [("theme", TomlVal.str key)])
        (st.settingsFile.getD []), [("theme", TomlVal.str key)], ?_, ?_, ?_, ?_, ?_, ?_⟩
    · simp [switch_theme, hf, hk, happ]
    · simp [switch_theme, hf, hk, happ]
    · exact lookup_setKey_self _ _ _
    · simp [List.lookup]
    · intro k hne
      exact lookup_setKey_ne k "appearance" hne _ _
    · intro a ha
      cases ha
  | some v =>
    cases v with
    | str s2 => exact absurd h (by simp [switch_theme, hf, hk, happ])
    | table a =>
      refine ⟨setKey "appearance" (TomlVal.table (setKey "theme" (TomlVal.str key) a))
          (st.settingsFile.getD []), setKey "theme" (TomlVal.str key) a, ?_, ?_, ?_, ?_, ?_, ?_⟩
      · simp [switch_theme, hf, hk, happ]
      · simp [switch_theme, hf, hk, happ]
      · exact lookup_setKey_self _ _ _
      · exact lookup_setKey_self _ _ _
      · intro k hne
        exact lookup_setKey_ne k "appearance" hne _ _
      · intro a2 ha2 k2 hne
        have haa : TomlVal.table a = TomlVal.table a2 := Option.some.inj ha2
        cases haa
        exact lookup_setKey_ne k2 "theme" hne _ _

/-- C3 (amended): switch_theme rejects, returning false with the registry
unchanged, every key that fails the source format check and every key
absent from the loaded theme set; the source format check accepts exactly
the spec grammar of [a-z0-9_]+ extended by one optional trailing newline,
the extra strings that Python regex matching lets through via its dollar
anchor. -/
theorem switch_theme_rejects_invalid :
    ∀ (saveOk : Bool) (key : String) (st : RegWorld),
      (matches_key_format key = false → switch_theme saveOk key st = (false, st))
      ∧ (List.lookup key st.themes = none → switch_theme saveOk key st = (false, st))
      ∧ (matches_key_format key = true ↔
          specKeyGrammar key = true ∨
            ∃ w : String, specKeyGrammar w = true ∧ key = w ++ "\n") := by
  intro saveOk key st
  refine ⟨?_, ?_, matches_key_format_iff key⟩
  · intro h
    simp [switch_theme, h]
  · intro h
    by_cases hf : matches_key_format key
    · simp [switch_theme, hf, h]
    · simp [switch_theme, hf]

/-- Concrete check for C3: a malformed key and an unknown key are both
rejected without touching the registry. -/
theorem switch_theme_rejects_invalid_check :
    switch_theme true "Dark Mode!" Wreject = (false, Wreject)
    ∧ switch_theme true "nonexistent" Wreject = (false, Wreject) :=
  ⟨(switch_theme_rejects_invalid true "Dark Mode!" Wreject).1 (by decide),
   (switch_theme_rejects_invalid true "nonexistent" Wreject).2.1 rfl⟩

/-- Counterexample to C3 as stated: the key consisting of abc and a
trailing newline does not match the grammar [a-z0-9_]+, yet when the
loaded theme table contains that key (as a TOML quoted key can produce),
switch_theme accepts it, returns true and changes the active theme key. -/
theorem switch_theme_grammar_cex :
    specKeyGrammar "abc\n" = false
    ∧ (switch_theme true "abc\n" Wcex).1 = true
    ∧ (switch_theme true "abc\n" Wcex).2.current_theme_key = "abc\n"
    ∧ Wcex.current_theme_key = "default" :=
  ⟨by decide, rfl, rfl, rfl⟩

/-- C4: when the key is well formed and loaded but persisting the
preference fails, switch_theme returns false while the in-memory active
key has already been switched and is not rolled back, the persisted
settings file is left unchanged, and get_current_theme afterwards returns
the newly selected theme. -/
theorem switch_theme_persist_failure_diverges :
    ∀ (key : String) (st : RegWorld),
      matches_key_format key = true →
      (List.lookup key st.themes).isSome = true →
      switch_theme false key st = (false, { st with current_theme_key := key })
      ∧ (switch_theme false key st).2.settingsFile = st.settingsFile
      ∧ (get_current_theme { st with current_theme_key := key }).1 =
          List.lookup key st.themes := by
  intro key st hf hk
  have hmain : switch_theme false key st = (false, { st with current_theme_key := key }) := by
    cases happ : List.lookup "appearance" (st.settingsFile.getD []) with
    | none => simp [switch_theme, hf, hk, happ]
    | some v =>
      cases v with
      | str s2 => simp [switch_theme, hf, hk, happ]
      | table a => simp [switch_theme, hf, hk, happ]
  refine ⟨hmain, by rw [hmain], ?_⟩
  unfold get_current_theme
  simp [hk]

/-- Concrete check for C4: switching to the loaded ocean theme while the
settings write fails reports false yet switches the in-memory key and
leaves the stored preference at the old key. -/
theorem switch_theme_persist_failure_diverges_check :
    (switch_theme false "ocean" Wpersist).1 = false
    ∧ (switch_theme false "ocean" Wpersist).2.current_theme_key = "ocean"
    ∧ (switch_theme false "ocean" Wpersist).2.settingsFile = Wpersist.settingsFile := by
  have h := switch_theme_persist_failure_diverges "ocean" Wpersist (by decide) (by decide)
  exact ⟨by rw [h.1], by rw [h.1], h.2.1⟩

/-- C5 (amended): initialize() fails fatally when the theme storage is
missing, has no theme entry, or lacks a default entry, and in the first
two cases the registry is untouched; in the missing-default case,
however, the loaded theme set has already been replaced by the newly
parsed definitions before the check fires, so the registry does not keep
its previous theme set. -/
theorem load_missing_default_fails :
    ∀ (saveOk : Bool) (st : RegWorld),
      initTracker ThemesFile.missing saveOk st = (some LoadErr.fileNotFound, st)
      ∧ initTracker ThemesFile.noThemeKey saveOk st = (some LoadErr.noThemes, st)
      ∧ ∀ doc : TomlTable, List.lookup "default" doc = none →
          initTracker (ThemesFile.withThemes doc) saveOk st =
            (some LoadErr.noDefault, { st with themes := doc }) := by
  intro saveOk st
  refine ⟨rfl, rfl, fun doc h => ?_⟩
  unfold initTracker load_themes
  simp [h]

/-- Concrete check for C5: loading a theme table without a default entry
raises the fatal error with the theme set already replaced. -/
theorem load_missing_default_fails_check :
    initTracker (ThemesFile.withThemes docNoDefault) true WFresh =
      (some LoadErr.noDefault, { WFresh with themes := docNoDefault }) :=
  (load_missing_default_fails true WFresh).2.2 docNoDefault rfl

/-- Counterexample to C5 as stated: on a theme file lacking the default
entry, initialize() does raise, but the set of loaded themes changes from
empty to the parsed table, so the registry does not remain in its
previous state. -/
theorem load_missing_default_mutates_cex :
    (initTracker (ThemesFile.withThemes docNoDefault) true WFresh).1 = some LoadErr.noDefault
    ∧ (initTracker (ThemesFile.withThemes docNoDefault) true WFresh).2.themes = docNoDefault
    ∧ WFresh.themes = []
    ∧ docNoDefault ≠ ([] : TomlTable) :=
  ⟨rfl, rfl, rfl, by simp [docNoDefault]⟩

/-- C6 (amended): initialize() is not memoized: every invocation reloads
the theme definitions file, so the loaded theme set always equals the
current file contents, and with a valid persisted preference the active
key always follows the current settings file. -/
theorem init_reloads_files :
    ∀ (doc : TomlTable) (saveOk : Bool) (st : RegWorld),
      (List.lookup "default" doc).isSome = true →
      (initTracker (ThemesFile.withThemes doc) saveOk st).2.themes = doc
      ∧ (∀ s a k, st.settingsFile = some s →
          List.lookup "appearance" s = some (TomlVal.table a) →
          List.lookup "theme" a = some (TomlVal.str k) →
          (List.lookup k doc).isSome = true →
          (initTracker (ThemesFile.withThemes doc) saveOk st).2.current_theme_key = k) := by
  intro doc saveOk st hd
  have hstep : initTracker (ThemesFile.withThemes doc) saveOk st =
      load_settings saveOk { st with themes := doc } := by
    unfold initTracker load_themes
    simp [hd]
  constructor
  · rw [hstep, load_settings_themes]
  · intro s a k hs ha ht hk
    rw [hstep]
    unfold load_settings applyKey
    have hs2 : ({ st with themes := doc } : RegWorld).settingsFile = some s := hs
    rw [hs2]
    simp [ha, ht, hk]

/-- Concrete check for C6: after a first successful initialize over one
theme file, re-invoking initialize over a changed theme file replaces the
loaded theme set with the new file contents. -/
theorem init_reloads_files_check :
    (initTracker (ThemesFile.withThemes themesV2) true
        (initTracker (ThemesFile.withThemes themesV1) true WFresh).2).2.themes = themesV2
    ∧ (initTracker (ThemesFile.withThemes themesV2) true
        (initTracker (ThemesFile.withThemes themesV1) true WFresh).2).2.current_theme_key =
          "default" := by
  have h := init_reloads_files themesV2 true
      (initTracker (ThemesFile.withThemes themesV1) true WFresh).2 (by decide)
  exact ⟨h.1, h.2 [("appearance", TomlVal.table [("theme", TomlVal.str "default")])]
      [("theme", TomlVal.str "default")] "default" rfl rfl rfl (by decide)⟩

/-- Counterexample to C6 as stated: a second initialize() call after a
successful first one is not a no-op; with the theme definitions file
changed in between, the second call succeeds and the loaded theme set
becomes the new file contents, different from the set the first call
loaded. -/
theorem init_not_noop_cex :
    (initTracker (ThemesFile.withThemes themesV1) true WFresh).1 = none
    ∧ (initTracker (ThemesFile.withThemes themesV2) true
        (initTracker (ThemesFile.withThemes themesV1) true WFresh).2).1 = none
    ∧ (initTracker (ThemesFile.withThemes themesV2) true
        (initTracker (ThemesFile.withThemes themesV1) true WFresh).2).2.themes = themesV2
    ∧ (initTracker (ThemesFile.withThemes themesV1) true WFresh).2.themes = themesV1
    ∧ themesV2 ≠ themesV1 :=
  ⟨rfl, rfl, rfl, rfl, by simp [themesV1, themesV2]⟩

/-- C9: when switch_theme(key) succeeds, a fresh registry initialized over
the resulting settings file and a theme file holding the same theme
definitions loads without error and with the active key equal to key. -/
theorem theme_preference_roundtrip :
    ∀ (key : String) (st : RegWorld) (saveOk2 : Bool),
      (List.lookup "default" st.themes).isSome = true →
      (switch_theme true key st).1 = true →
      (initTracker (ThemesFile.withThemes st.themes) saveOk2
          ⟨[], "default", (switch_theme true key st).2.settingsFile⟩).1 = none
      ∧ (initTracker (ThemesFile.withThemes st.themes) saveOk2
          ⟨[], "default", (switch_theme true key st).2.settingsFile⟩).2.current_theme_key =
            key := by
  intro key st saveOk2 hd hs
  obtain ⟨hk, s2, a2, hfile, hcur, happ, hth, hframe, hinner⟩ :=
    switch_success_settings key st hs
  have hstep : initTracker (ThemesFile.withThemes st.themes) saveOk2
      ⟨[], "default", (switch_theme true key st).2.settingsFile⟩ =
      load_settings saveOk2 ⟨st.themes, "default", (switch_theme true key st).2.settingsFile⟩ := by
    unfold initTracker load_themes
    simp [hd]
  rw [hstep, hfile]
  unfold load_settings applyKey
  simp [happ, hth, hk]

/-- Concrete check for C9: after switching to ocean, a fresh registry
reading the written settings file over the same themes loads ocean. -/
theorem theme_preference_roundtrip_check :
    (initTracker (ThemesFile.withThemes Wpersist.themes) true
        ⟨[], "default", (switch_theme true "ocean" Wpersist).2.settingsFile⟩).2.current_theme_key =
      "ocean" :=
  (theme_preference_roundtrip "ocean" Wpersist true (by decide) (by decide)).2

/-- C10: a successful switch_theme only rewrites the theme entry of the
appearance section: every other top-level entry of the settings file and
every other entry of the appearance table keeps its previous value. -/
theorem switch_theme_frame :
    ∀ (key : String) (st : RegWorld) (s : TomlTable),
      st.settingsFile = some s →
      (switch_theme true key st).1 = true →
      ∃ s2, (switch_theme true key st).2.settingsFile = some s2
        ∧ (∀ k, k ≠ "appearance" → List.lookup k s2 = List.lookup k s)
        ∧ ∀ a, List.lookup "appearance" s = some (TomlVal.table a) →
            ∃ a2, List.lookup "appearance" s2 = some (TomlVal.table a2)
              ∧ List.lookup "theme" a2 = some (TomlVal.str key)
              ∧ ∀ k2, k2 ≠ "theme" → List.lookup k2 a2 = List.lookup k2 a := by
  intro key st s hs hsucc
  obtain ⟨hk, s2, a2, hfile, hcur, happ, hth, hframe, hinner⟩ :=
    switch_success_settings key st hsucc
  refine ⟨s2, hfile, ?_, ?_⟩
  · intro k hkk
    rw [hframe k hkk, hs]
    rfl
  · intro a ha
    refine ⟨a2, happ, hth, ?_⟩
    intro k2 hk2
    exact hinner a (by rw [hs]; exact ha) k2 hk2

/-- Concrete check for C10: switching to ocean preserves the unrelated
window entry of the settings file. -/
theorem switch_theme_frame_check :
    List.lookup "window" ((switch_theme true "ocean" Wframe).2.settingsFile.getD [])
      = some (TomlVal.str "big") := by
  obtain ⟨s2, hfile, hframe, hinner⟩ := switch_theme_frame "ocean" Wframe
      [("window", TomlVal.str "big"),
        ("appearance", TomlVal.table [("theme", TomlVal.str "default"), ("font", TomlVal.str "mono")])]
      rfl (by decide)
  rw [hfile]
  show List.lookup "window" s2 = some (TomlVal.str "big")
  rw [hframe "window" (by decide)]
  rfl
